import Mathlib

/-!
Shallow embedding of `main.py` from the learnus-bot repository.

The program drives a browser (selenium) against an e-learning portal.  All
browser interaction is modelled by explicit environment records that record
the outcome of each element lookup / attribute read; Python exceptions are
modelled with `Except PyErr`.  Python floats are modelled as exact rationals
(`ℚ`): every property verified here is about exact comparisons and the
presence or absence of a division by zero, none is about rounding.
-/

namespace LearnusBot

/-- The Python exceptions that the relevant code paths can raise. -/
inductive PyErr where
  | noSuchElement   -- selenium NoSuchElementException
  | noAlertPresent  -- selenium NoAlertPresentException
  | typeError       -- Python TypeError
  | zeroDivision    -- Python ZeroDivisionError
  | indexError      -- Python IndexError
  | valueError      -- Python ValueError
  deriving DecidableEq, Repr

/-- `@dataclass class Course: title: str; link: str` (main.py lines 37-40). -/
structure Course where
  title : String
  link : String
  deriving DecidableEq, Repr

/-- `@dataclass class Vod: name: str; link: str; is_complete: bool`
(main.py lines 43-47). -/
structure Vod where
  name : String
  link : String
  is_complete : Bool
  deriving DecidableEq, Repr

/-! ### Link canonicalization (main.py line 82)

`vod_link.replace("view.php", "viewer.php")`: Python replaces every
non-overlapping occurrence of the pattern, scanning left to right. -/

/-- The characters of the pattern `"view.php"`. -/
def viewPat : List Char := "view.php".data

/-- The characters of the replacement `"viewer.php"`. -/
def viewerRep : List Char := "viewer.php".data

/-- Python `str.replace("view.php", "viewer.php")` on the character list:
scan left to right; where the pattern matches, emit the replacement and skip
past the matched characters; otherwise keep the character and move on. -/
def replaceViewChars : List Char → List Char
  | [] => []
  | c :: rest =>
    if (c :: rest).take viewPat.length = viewPat then
      viewerRep ++ replaceViewChars (rest.drop (viewPat.length - 1))
    else
      c :: replaceViewChars rest
termination_by l => l.length
decreasing_by
  · simp only [List.length_drop, List.length_cons]
    omega
  · simp only [List.length_cons]
    omega

/-- The canonicalized link stored in a `Vod`:
`vod_link.replace("view.php", "viewer.php")` (main.py line 82). -/
def canonicalizeLink (s : String) : String := ⟨replaceViewChars s.data⟩

/-! ### Deduplication by link (main.py lines 90-94)

```
vod_links_set = set()
vods = [v for v in vods if not (v.link in vod_links_set or vod_links_set.add(v.link))]
```
The comprehension keeps a `Vod` exactly when its link has not been seen yet,
adding each kept link to the seen-set, so the first occurrence of each link
is retained in order. -/

/-- The comprehension of main.py lines 92-94, with the mutable `vod_links_set`
made an explicit accumulator of already-seen links. -/
def dedupGo (seen : List String) : List Vod → List Vod
  | [] => []
  | v :: rest =>
    if v.link ∈ seen then dedupGo seen rest
    else v :: dedupGo (v.link :: seen) rest

/-- The deduplication step of `get_all_vods_under_course`: keep the first
occurrence of each link (main.py lines 90-94). -/
def dedupByLink (vods : List Vod) : List Vod := dedupGo [] vods

/-! ### Catalog scan of one course (main.py lines 61-96) -/

/-- One DOM element matching the `.vod.activity` selector, abstracted to the
three reads the scan performs on it: the `span.instancename` text, the
`a` element's `href`, and the completion icon's `src` — `none` when the
`img.icon` element is absent (the `find_element` call then raises
`NoSuchElementException`). -/
structure VodElement where
  name : String
  link : String
  icon : Option String
  deriving DecidableEq, Repr

/-- `vod_element.find_element(By.CSS_SELECTOR, "img.icon")` followed by
`.get_attribute("src")` (main.py line 75): raises `NoSuchElementException`
when the icon element is absent. -/
def findIconSrc (e : VodElement) : Except PyErr String :=
  match e.icon with
  | some src => Except.ok src
  | none => Except.error PyErr.noSuchElement

/-- The body of the try block of main.py lines 74-86 for one element: read
the icon source, derive `is_complete` from its `"completion-auto-y"` suffix,
and build the `Vod` that is appended. -/
def vodOfElement (e : VodElement) : Except PyErr Vod := do
  let src ← findIconSrc e
  pure (Vod.mk e.name (canonicalizeLink e.link) (src.endsWith "completion-auto-y"))

/-- The try/except of main.py lines 74-88 for one element: the
`except NoSuchElementException` clause turns exactly that exception into
"append nothing"; any other exception would propagate. -/
def processVodElement (e : VodElement) : Except PyErr (Option Vod) :=
  match vodOfElement e with
  | Except.ok v => Except.ok (some v)
  | Except.error PyErr.noSuchElement => Except.ok none
  | Except.error err => Except.error err

/-- The element loop of main.py lines 68-88: run `processVodElement` over the
scanned elements in order, collecting the appended `Vod`s. -/
def scanVodElements : List VodElement → Except PyErr (List Vod)
  | [] => Except.ok []
  | e :: rest => do
    let v ← processVodElement e
    let vs ← scanVodElements rest
    pure (v.toList ++ vs)

/-- `get_all_vods_under_course` (main.py lines 61-96) with the page contents
abstracted to the list of `.vod.activity` elements: scan every element, then
deduplicate by link. -/
def get_all_vods_under_course (elems : List VodElement) : Except PyErr (List Vod) := do
  let vods ← scanVodElements elems
  pure (dedupByLink vods)

/-! ### parse_time_to_secs (main.py lines 99-115)

Every branch condition is `len(time_str_splitted == N)`: Python compares the
list with an integer (always `False`, since a `list` never equals an `int`),
then applies `len()` to that boolean, which raises
`TypeError: object of type 'bool' has no len()`. -/

/-- A Python value as it occurs in `parse_time_to_secs`. -/
inductive PyVal where
  | int (n : Int)
  | bool (b : Bool)
  | list (xs : List String)
  deriving DecidableEq, Repr

/-- Python `==` on the values that occur here: a `list` compared with an
`int` is `False` (no common `__eq__`); like values compare structurally. -/
def pyEq : PyVal → PyVal → PyVal
  | PyVal.int a, PyVal.int b => PyVal.bool (a == b)
  | PyVal.bool a, PyVal.bool b => PyVal.bool (a == b)
  | PyVal.list a, PyVal.list b => PyVal.bool (a == b)
  | _, _ => PyVal.bool false

/-- Python `len()`: defined on lists, raises `TypeError` on `bool` and
`int` (no `__len__`). -/
def pyLen : PyVal → Except PyErr Int
  | PyVal.list xs => Except.ok (Int.ofNat xs.length)
  | _ => Except.error PyErr.typeError

/-- Python `int(s)`: parses the string as an integer, raising `ValueError`
when it is not one. -/
def pyInt (s : String) : Except PyErr Int :=
  match s.toInt? with
  | some n => Except.ok n
  | none => Except.error PyErr.valueError

/-- `parse_time_to_secs` (main.py lines 99-115), with the exact branch
conditions of the source: each condition is `len(time_str_splitted == N)`,
applying `len()` to the boolean result of comparing the split list with an
integer. -/
def parse_time_to_secs (time_str : String) : Except PyErr Int := do
  let parts := time_str.splitOn ":"
  let c1 ← pyLen (pyEq (PyVal.list parts) (PyVal.int 1))
  if c1 ≠ 0 then
    pyInt (parts.getD 0 "")
  else do
    let c2 ← pyLen (pyEq (PyVal.list parts) (PyVal.int 2))
    if c2 ≠ 0 then do
      let h ← pyInt (parts.getD 0 "")
      let m ← pyInt (parts.getD 1 "")
      pure (h * 60 + m)
    else do
      let c3 ← pyLen (pyEq (PyVal.list parts) (PyVal.int 3))
      if c3 ≠ 0 then do
        let h ← pyInt (parts.getD 0 "")
        let m ← pyInt (parts.getD 1 "")
        let s ← pyInt (parts.getD 2 "")
        pure (h * 3600 + m * 60 + s)
      else
        Except.error PyErr.valueError

/-! ### Playback progress (main.py lines 118-130)

`_vod_get_current_progress` reads the three `aria-value*` attributes and
returns `(now - min) / (max - min)`.  Python raises `ZeroDivisionError`
when the denominator is zero; floats are modelled as exact rationals. -/

/-- `_vod_get_current_progress` (main.py lines 118-130) on the three
attribute values: `(float(value_now) - float(value_min)) /
(float(value_max) - float(value_min))`, raising `ZeroDivisionError` exactly
when the denominator is zero.  There is no other handling of the
`min == max` case in the source. -/
def vod_get_current_progress (now mn mx : ℚ) : Except PyErr ℚ :=
  if mx - mn = 0 then Except.error PyErr.zeroDivision
  else Except.ok ((now - mn) / (mx - mn))

/-! ### The poll loop of play_vod (main.py lines 175-182)

```
while True:
    time.sleep(1)
    current_progress = _vod_get_current_progress(driver)
    progress.update(task1, completed=current_progress * 10000)
    if current_progress > 0.995:
        break
```
The loop is modelled on the finite sequence of attribute triples the player
would report on successive polls: the result is `some i` when the loop
breaks on the i-th poll, `none` when the given readings are exhausted
without the threshold being crossed (the real loop would keep polling), and
an error when a poll raises. -/

/-- The poll loop of `play_vod` (main.py lines 175-182), driven by the
sequence of `(aria-valuenow, aria-valuemin, aria-valuemax)` triples observed
on successive iterations. -/
def pollLoop : List (ℚ × ℚ × ℚ) → Except PyErr (Option Nat)
  | [] => Except.ok none
  | (now, mn, mx) :: rest =>
    match vod_get_current_progress now mn mx with
    | Except.error e => Except.error e
    | Except.ok p =>
      if p > 995 / 1000 then Except.ok (some 0)
      else
        match pollLoop rest with
        | Except.ok (some i) => Except.ok (some (i + 1))
        | r => r

/-! ### play_vod (main.py lines 161-184)

The browser is abstracted to a record of the outcome of each automation
step `play_vod` performs: the navigation, whether a native alert is present,
the play-button lookup-and-click, the playback-rate-button lookup-and-click,
how many entries the rate menu has, and the progress readings of the poll
loop.  `time.sleep` and the progress-display updates have no effect on the
returned value and are not modelled. -/

/-- Outcomes of the automation steps of one `play_vod` run. -/
structure DriverEnv where
  navResult : Except PyErr Unit
  alertPresent : Bool
  playBtnResult : Except PyErr Unit
  rateBtnResult : Except PyErr Unit
  rateMenuCount : Nat
  readings : List (ℚ × ℚ × ℚ)
  deriving Repr

/-- `driver.switch_to.alert` (main.py line 149): raises
`NoAlertPresentException` when no alert is present. -/
def switch_to_alert (env : DriverEnv) : Except PyErr Unit :=
  if env.alertPresent then Except.ok () else Except.error PyErr.noAlertPresent

/-- `_vod_confirm_alert_if_exists` (main.py lines 147-153): accept the alert
if there is one; the `except NoAlertPresentException` clause swallows exactly
that exception. -/
def vod_confirm_alert_if_exists (env : DriverEnv) : Except PyErr Unit :=
  match switch_to_alert env with
  | Except.ok () => Except.ok ()
  | Except.error PyErr.noAlertPresent => Except.ok ()
  | Except.error e => Except.error e

/-- `_vod_click_play_btn` (main.py lines 156-158): the `#my-video > button`
lookup and click; a lookup failure raises. -/
def vod_click_play_btn (env : DriverEnv) : Except PyErr Unit :=
  env.playBtnResult

/-- `_vod_set_to_highest_playback_rate` (main.py lines 133-144): find and
click the rate button (may raise), list the rate-menu entries, then click
entry `[0]` — indexing an empty list raises `IndexError`. -/
def vod_set_to_highest_playback_rate (env : DriverEnv) : Except PyErr Unit := do
  let _ ← env.rateBtnResult
  if env.rateMenuCount = 0 then Except.error PyErr.indexError
  else Except.ok ()

/-- `play_vod` (main.py lines 161-184): navigate, dialog check, play click,
rate selection, then the poll loop.  No step's exception is caught here
except inside the dialog check. -/
def play_vod (env : DriverEnv) : Except PyErr (Option Nat) := do
  let _ ← env.navResult
  let _ ← vod_confirm_alert_if_exists env
  let _ ← vod_click_play_btn env
  let _ ← vod_set_to_highest_playback_rate env
  pollLoop env.readings

/-! ### The worker (main.py lines 249-259)

```
driver = build_driver(headless=headless)
do_login(driver, ...)
play_vod(driver, vod, course, progress)
driver.close()
```
There is no try/finally: `driver.close()` runs only when `do_login` and
`play_vod` both return normally (and `play_vod` only returns once its poll
loop has exited). -/

/-- Outcomes of a worker run. -/
inductive WorkerOutcome where
  | failed (e : PyErr)  -- an uncaught exception propagated out of the run
  | stillPolling        -- the poll loop had not yet exited on the observed readings
  | completed           -- the run reached the end of play_vod
  deriving DecidableEq, Repr

/-- The environment of one worker: the outcome of its `do_login` call and
the driver environment of its `play_vod` call. -/
structure WorkerEnv where
  loginResult : Except PyErr Unit
  driverEnv : DriverEnv
  deriving Repr

/-- `play_vod_in_seperate_thread` (main.py lines 249-259): the returned flag
records whether the final `driver.close()` (line 259) was reached. -/
def play_vod_in_seperate_thread (env : WorkerEnv) : WorkerOutcome × Bool :=
  match env.loginResult with
  | Except.error e => (WorkerOutcome.failed e, false)
  | Except.ok () =>
    match play_vod env.driverEnv with
    | Except.error e => (WorkerOutcome.failed e, false)
    | Except.ok none => (WorkerOutcome.stillPolling, false)
    | Except.ok (some _) => (WorkerOutcome.completed, true)

/-! ### main (main.py lines 262-336), after the catalog scan

The part of `main` the claims are about starts once `courses` and the
per-course vod lists are known.  Observable behaviour is modelled as the
list of actions performed, in order:
- `fetchManifest`: `_vod_get_video_m3u8_link` navigates the browser to the
  video page and reads the manifest URL (main.py line 305) — a network
  fetch that happens before the file-existence check;
- `runDownloader`: `M3u8Downloader(...).start()` (main.py lines 314-317);
- `playback`: `executor.submit(play_vod_in_seperate_thread, ...)`
  (main.py lines 329-333).

After the scan loop `for course in courses: ...` (main.py lines 293-298)
the Python name `course` is still bound to the LAST course of the list, and
it is this leftover binding that line 307 uses to build the filename.
The md5 hex digest is external (`hashlib`); it is a parameter of the model. -/

/-- The externally observable actions of `main` after the catalog scan. -/
inductive Action where
  | fetchManifest (vodName : String)
  | runDownloader (vodName : String) (filename : String)
  | playback (vodName : String)
  deriving DecidableEq, Repr

/-- The filename expression of main.py lines 306-308:
`hashlib.md5((course.title + vod.name).encode()).hexdigest() + ".mp4"`,
with the digest as the parameter `md5hex` and the title of whatever
`course` denotes at that point as `title`. -/
def derive_filename (md5hex : String → String) (title name : String) : String :=
  md5hex (title ++ name) ++ ".mp4"

/-- The download-loop body of main.py lines 303-317 for one vod: fetch the
manifest link, derive the filename from the leftover `course` binding, skip
the downloader when the file exists, run it otherwise. -/
def downloadActions (md5hex : String → String) (fileExists : String → Bool)
    (lastTitle : String) (v : Vod) : List Action :=
  let filename := derive_filename md5hex lastTitle v.name
  Action.fetchManifest v.name ::
    (if fileExists filename then [] else [Action.runDownloader v.name filename])

/-- main.py lines 286-336 after the catalog scan, as the ordered list of
actions performed.  `courseVods` pairs each course with the vods scanned
under it.  Note the two facts of the source this records: the download loop
uses the last course's title for every vod, and the playback submission loop
(lines 329-333) runs unconditionally, in download mode too. -/
def mainTrace (download : Bool) (courseVods : List (Course × List Vod))
    (fileExists : String → Bool) (md5hex : String → String) : List Action :=
  let all_vods := (courseVods.map Prod.snd).flatten
  let non_completed := all_vods.filter (fun v => !v.is_complete)
  let lastTitle := ((courseVods.getLast?).map (fun p => p.1.title)).getD ""
  let dl :=
    if download then all_vods.flatMap (downloadActions md5hex fileExists lastTitle)
    else []
  dl ++ non_completed.map (fun v => Action.playback v.name)

/-! ## Theorems -/

/-- Sequencing in `Except`: a normal value continues with the rest. -/
@[simp] theorem except_ok_bind {ε α β : Type} (a : α) (f : α → Except ε β) :
    (Except.ok a >>= f) = f a := rfl

/-- Sequencing in `Except`: a raised exception short-circuits the rest. -/
@[simp] theorem except_error_bind {ε α β : Type} (e : ε) (f : α → Except ε β) :
    ((Except.error e : Except ε α) >>= f) = Except.error e := rfl

/-- Every element of `dedupGo seen l` is an element of `l` whose link is not
among the already-seen links. -/
theorem dedupGo_mem {seen : List String} {l : List Vod} {v : Vod}
    (h : v ∈ dedupGo seen l) : v ∈ l ∧ v.link ∉ seen := by
  induction l generalizing seen with
  | nil => simp [dedupGo] at h
  | cons w rest ih =>
    rw [dedupGo] at h
    by_cases hw : w.link ∈ seen
    · rw [if_pos hw] at h
      obtain ⟨h1, h2⟩ := ih h
      exact ⟨List.mem_cons_of_mem w h1, h2⟩
    · rw [if_neg hw] at h
      rcases List.mem_cons.mp h with rfl | h
      · exact ⟨List.mem_cons_self v rest, hw⟩
      · obtain ⟨h1, h2⟩ := ih h
        refine ⟨List.mem_cons_of_mem w h1, fun hs => h2 (List.mem_cons_of_mem _ hs)⟩

/-- The links of `dedupGo seen l` are pairwise distinct. -/
theorem dedupGo_pairwise (seen : List String) (l : List Vod) :
    List.Pairwise (fun a b => a.link ≠ b.link) (dedupGo seen l) := by
  induction l generalizing seen with
  | nil => simp [dedupGo]
  | cons w rest ih =>
    rw [dedupGo]
    by_cases hw : w.link ∈ seen
    · rw [if_pos hw]; exact ih seen
    · rw [if_neg hw]
      refine List.Pairwise.cons ?_ (ih (w.link :: seen))
      intro b hb heq
      exact (dedupGo_mem hb).2 (heq ▸ List.mem_cons_self w.link seen)

/-- `dedupGo` never returns an entry whose link was already seen. -/
theorem dedupGo_find_seen {t : String} {seen : List String} (hs : t ∈ seen)
    (l : List Vod) : (dedupGo seen l).find? (fun v => v.link == t) = none := by
  induction l generalizing seen with
  | nil => simp [dedupGo]
  | cons w rest ih =>
    rw [dedupGo]
    by_cases hw : w.link ∈ seen
    · rw [if_pos hw]; exact ih hs
    · rw [if_neg hw]
      have hne : (w.link == t) = false := by
        refine beq_eq_false_iff_ne.mpr ?_
        exact fun heq => hw (heq ▸ hs)
      simp only [List.find?_cons, hne]
      exact ih (List.mem_cons_of_mem _ hs)

/-- For a link not yet seen, the first entry `dedupGo` keeps for it is the
first entry of the input with that link. -/
theorem dedupGo_find_fresh {t : String} {seen : List String} (hs : t ∉ seen)
    (l : List Vod) : (dedupGo seen l).find? (fun v => v.link == t) =
      l.find? (fun v => v.link == t) := by
  induction l generalizing seen with
  | nil => simp [dedupGo]
  | cons w rest ih =>
    rw [dedupGo]
    by_cases hw : w.link ∈ seen
    · rw [if_pos hw]
      have hne : (w.link == t) = false := by
        refine beq_eq_false_iff_ne.mpr ?_
        exact fun heq => hs (heq ▸ hw)
      simp only [List.find?_cons, hne]
      exact ih hs
    · rw [if_neg hw]
      by_cases heq : (w.link == t) = true
      · simp only [List.find?_cons, heq]
      · have hne : (w.link == t) = false := by
          cases hb : (w.link == t)
          · rfl
          · exact absurd hb heq
        simp only [List.find?_cons, hne]
        refine ih ?_
        intro hmem
        rcases List.mem_cons.mp hmem with h | h
        · exact heq (beq_iff_eq.mpr h.symm)
        · exact hs h

/-- C6: the deduplication step returns a list with pairwise-distinct links,
drawn from the input, and for every link the entry it retains is exactly the
first entry of the input carrying that link (compared by `find?` on both
sides: the retained entry and the first-encountered entry agree on all
fields). -/
theorem dedup_by_link_keeps_first_occurrence (vods : List Vod) :
    List.Pairwise (fun a b => a.link ≠ b.link) (dedupByLink vods) ∧
    (∀ v ∈ dedupByLink vods, v ∈ vods) ∧
    ∀ t : String, (dedupByLink vods).find? (fun v => v.link == t) =
      vods.find? (fun v => v.link == t) := by
  refine ⟨dedupGo_pairwise [] vods, ?_, ?_⟩
  · intro v hv
    exact (dedupGo_mem hv).1
  · intro t
    exact dedupGo_find_fresh (List.not_mem_nil t) vods

/-- `processVodElement` never raises: a present icon yields the built `Vod`,
an absent icon yields nothing (the `NoSuchElementException` is caught). -/
theorem processVodElement_eq (e : VodElement) :
    processVodElement e = Except.ok (e.icon.map fun src =>
      Vod.mk e.name (canonicalizeLink e.link) (src.endsWith "completion-auto-y")) := by
  rcases h : e.icon with _ | src <;>
    simp [processVodElement, vodOfElement, findIconSrc, h, Except.bind]

/-- The element loop collects exactly the vods built from the elements whose
icon is present, in order. -/
theorem scanVodElements_eq (elems : List VodElement) :
    scanVodElements elems = Except.ok (elems.filterMap fun e =>
      e.icon.map fun src =>
        Vod.mk e.name (canonicalizeLink e.link) (src.endsWith "completion-auto-y")) := by
  induction elems with
  | nil => rfl
  | cons e rest ih =>
    rw [scanVodElements, processVodElement_eq]
    rcases h : e.icon with _ | src <;>
      simp [h, ih, List.filterMap_cons, Except.bind]

/-- C1 counterexample: a scanned element whose completion icon is absent is
NOT added to the returned list — at the concrete input of one iconless
element named `"v1"`, the scan returns successfully but no entry named
`"v1"` (with any completion flag) is in the result, contradicting the claim
that the entry is still added with `is_complete = false`. -/
theorem iconless_vod_not_added :
    (∃ l, get_all_vods_under_course [VodElement.mk "v1" "L" none] = Except.ok l ∧
      ∃ v ∈ l, v.name = "v1") ↔ False := by
  constructor
  · rintro ⟨l, hl, v, hv, -⟩
    have h0 : get_all_vods_under_course [VodElement.mk "v1" "L" none] =
        Except.ok ([] : List Vod) := rfl
    rw [h0] at hl
    injection hl with h
    subst h
    exact absurd hv (List.not_mem_nil v)
  · exact False.elim

/-- C1 (amended): in the catalog scan, an absent completion icon is caught
locally — the scan always returns a list, never propagating the lookup
failure — but the affected element is dropped: every entry of the returned
list comes from an element whose icon was present, with `is_complete`
derived from the icon source's suffix. -/
theorem get_all_vods_drops_iconless (elems : List VodElement) :
    ∃ l, get_all_vods_under_course elems = Except.ok l ∧
      ∀ v ∈ l, ∃ e, e ∈ elems ∧ ∃ src, e.icon = some src ∧
        v = Vod.mk e.name (canonicalizeLink e.link) (src.endsWith "completion-auto-y") := by
  refine ⟨dedupByLink (elems.filterMap fun e => e.icon.map fun src =>
    Vod.mk e.name (canonicalizeLink e.link) (src.endsWith "completion-auto-y")), ?_, ?_⟩
  · simp [get_all_vods_under_course, scanVodElements_eq, Except.bind]
  · intro v hv
    have hv' : v ∈ dedupGo [] (elems.filterMap fun e => e.icon.map fun src =>
        Vod.mk e.name (canonicalizeLink e.link) (src.endsWith "completion-auto-y")) := hv
    have hm := (dedupGo_mem hv').1
    rw [List.mem_filterMap] at hm
    obtain ⟨e, he, hfe⟩ := hm
    rcases hsrc : e.icon with _ | src
    · rw [hsrc] at hfe
      simp at hfe
    · rw [hsrc] at hfe
      have hfe' : some (Vod.mk e.name (canonicalizeLink e.link)
          (src.endsWith "completion-auto-y")) = some v := hfe
      injection hfe' with hv
      exact ⟨e, he, src, hsrc, hv.symm⟩

/-- C10: for every input string, `parse_time_to_secs` raises a `TypeError`
before returning: its first branch condition applies `len()` to the boolean
result of comparing the split list with the integer 1, so no call ever
produces a number of seconds. -/
theorem parse_time_to_secs_always_type_error (time_str : String) :
    parse_time_to_secs time_str = Except.error PyErr.typeError := rfl

/-- C4 counterexample: at the concrete attribute triple
`(now, min, max) = (100, 100, 100)` (so `min = max`), the playback-progress
computation raises `ZeroDivisionError`; the source has no handling of this
case, contradicting the claim that it is explicitly handled rather than
raising. -/
theorem progress_at_min_eq_max_raises :
    vod_get_current_progress 100 100 100 = Except.error PyErr.zeroDivision := by
  simp [vod_get_current_progress]

/-- C4 (amended): `_vod_get_current_progress` raises `ZeroDivisionError`
exactly when `value_min = value_max`, and the error propagates uncaught; for
`value_min ≠ value_max` it returns `(now − min) / (max − min)`. -/
theorem progress_min_eq_max_behaviour (now mn mx : ℚ) :
    (mn = mx → vod_get_current_progress now mn mx = Except.error PyErr.zeroDivision) ∧
    (mn ≠ mx →
      vod_get_current_progress now mn mx = Except.ok ((now - mn) / (mx - mn))) := by
  constructor
  · intro h
    simp [vod_get_current_progress, h]
  · intro h
    have hne : mx - mn ≠ 0 := sub_ne_zero.mpr (Ne.symm h)
    simp [vod_get_current_progress, hne]

/-- C2: evaluated at a catalog of two courses where the vod `"v1"` belongs
to the FIRST course `"CourseA"`, the download loop derives the filename from
the LAST course's title `"CourseB"` (the leftover loop variable of main.py
line 293 used at line 307), not from the entry's own course title; and when
the file already exists the downloader is skipped but the manifest
extraction (a network navigation, main.py line 305) is still performed. -/
theorem download_filename_uses_last_course_title :
    (mainTrace true
        [(Course.mk "CourseA" "la", [Vod.mk "v1" "lv" true]), (Course.mk "CourseB" "lb", [])]
        (fun _ => false) (fun s => "#" ++ s) =
      [Action.fetchManifest "v1", Action.runDownloader "v1" "#CourseBv1.mp4"]) ∧
    ("#CourseBv1.mp4" ≠ derive_filename (fun s => "#" ++ s) "CourseA" "v1") ∧
    (mainTrace true
        [(Course.mk "CourseA" "la", [Vod.mk "v1" "lv" true]), (Course.mk "CourseB" "lb", [])]
        (fun _ => true) (fun s => "#" ++ s) =
      [Action.fetchManifest "v1"]) := by
  refine ⟨rfl, ?_, rfl⟩
  decide

/-- C3: evaluated with `--download` set and one non-completed vod, the trace
of `main` still ends with a playback submission for that vod: the playback
loop of main.py lines 323-336 runs unconditionally, so download mode does
NOT replace the Completion Driver path, contradicting the source's own help
text "download the vods instead of playing them" (main.py line 356). -/
theorem download_mode_still_plays :
    (mainTrace true [(Course.mk "A" "la", [Vod.mk "v1" "lv" false])]
        (fun _ => false) (fun s => s) =
      [Action.fetchManifest "v1", Action.runDownloader "v1" "Av1.mp4",
        Action.playback "v1"]) ∧
    Action.playback "v1" ∈
      mainTrace true [(Course.mk "A" "la", [Vod.mk "v1" "lv" false])]
        (fun _ => false) (fun s => s) := by
  refine ⟨rfl, ?_⟩
  rw [show mainTrace true [(Course.mk "A" "la", [Vod.mk "v1" "lv" false])]
        (fun _ => false) (fun s => s) =
      [Action.fetchManifest "v1", Action.runDownloader "v1" "Av1.mp4",
        Action.playback "v1"] from rfl]
  simp

/-- The pattern `"view.php"` has eight characters. -/
theorem viewPat_length : viewPat.length = 8 := rfl

/-- The replacement `"viewer.php"` has ten characters. -/
theorem viewerRep_length : viewerRep.length = 10 := rfl

/-- Replacement never shortens the text. -/
theorem replaceViewChars_length_ge (l : List Char) :
    l.length ≤ (replaceViewChars l).length := by
  induction l using replaceViewChars.induct with
  | case1 => simp [replaceViewChars]
  | case2 c rest h ih =>
    rw [replaceViewChars, if_pos h]
    have hlen := congrArg List.length h
    simp only [List.length_take, viewPat_length, List.length_cons] at hlen
    simp only [viewPat_length, List.length_drop] at ih
    simp only [List.length_append, viewerRep_length, List.length_cons, viewPat_length,
      List.length_drop]
    omega
  | case3 c rest h ih =>
    rw [replaceViewChars, if_neg h]
    simp only [List.length_cons]
    omega

/-- On text with no occurrence of the pattern, replacement is the
identity. -/
theorem replaceViewChars_of_not_infix {l : List Char} (h : ¬ viewPat <:+: l) :
    replaceViewChars l = l := by
  induction l using replaceViewChars.induct with
  | case1 => rw [replaceViewChars]
  | case2 c rest hp ih =>
    have hpre : viewPat <+: (c :: rest) := hp ▸ List.take_prefix viewPat.length (c :: rest)
    exact absurd hpre.isInfix h
  | case3 c rest hp ih =>
    rw [replaceViewChars, if_neg hp]
    rw [ih fun hi => h (List.infix_cons hi)]

/-- On text containing the pattern, the replacement output contains
`"viewer.php"` and is strictly longer than the input. -/
theorem replaceViewChars_of_infix {l : List Char} (h : viewPat <:+: l) :
    viewerRep <:+: replaceViewChars l ∧ l.length < (replaceViewChars l).length := by
  induction l using replaceViewChars.induct with
  | case1 =>
    have hne : viewPat ≠ [] := by decide
    rw [List.infix_nil] at h
    exact absurd h hne
  | case2 c rest hp ih =>
    rw [replaceViewChars, if_pos hp]
    constructor
    · exact (List.prefix_append viewerRep _).isInfix
    · have hlen := congrArg List.length hp
      simp only [List.length_take, viewPat_length, List.length_cons] at hlen
      have hge := replaceViewChars_length_ge (rest.drop (viewPat.length - 1))
      simp only [viewPat_length, List.length_drop] at hge
      simp only [List.length_append, viewerRep_length, List.length_cons, viewPat_length,
        List.length_drop]
      omega
  | case3 c rest hp ih =>
    obtain ⟨s, t, hst⟩ := h
    rcases s with _ | ⟨a, s⟩
    · rw [List.nil_append] at hst
      have hpre : viewPat <+: (c :: rest) := ⟨t, hst⟩
      have := List.prefix_iff_eq_take.mp hpre
      exact absurd this.symm hp
    · rw [List.cons_append, List.cons_append] at hst
      injection hst with ha hrest
      have hres : viewPat <:+: rest := ⟨s, t, hrest⟩
      obtain ⟨hinf, hlt⟩ := ih hres
      rw [replaceViewChars, if_neg hp]
      refine ⟨List.infix_cons hinf, ?_⟩
      simp only [List.length_cons]
      omega

/-- C7: link canonicalization — a raw link containing the literal substring
`"view.php"` is stored changed, with `"viewer.php"` appearing in the stored
text (every occurrence is replaced, so the result is strictly longer); a
link without that substring is stored unchanged. -/
theorem canonicalize_link_spec (s : String) :
    (¬ viewPat <:+: s.data → canonicalizeLink s = s) ∧
    (viewPat <:+: s.data →
      viewerRep <:+: (canonicalizeLink s).data ∧ canonicalizeLink s ≠ s) := by
  constructor
  · intro h
    have hr : replaceViewChars s.data = s.data := replaceViewChars_of_not_infix h
    show String.mk (replaceViewChars s.data) = s
    rw [hr]
  · intro h
    obtain ⟨hinf, hlt⟩ := replaceViewChars_of_infix h
    refine ⟨hinf, ?_⟩
    intro heq
    have hd : replaceViewChars s.data = s.data := congrArg String.data heq
    rw [hd] at hlt
    exact lt_irrefl _ hlt

/-- A poll against attribute triple `(r, 0, 1)` reads progress `r`. -/
theorem vgcp_unit (r : ℚ) : vod_get_current_progress r 0 1 = Except.ok r := by
  simp [vod_get_current_progress]

/-- C5: the poll loop of `play_vod` exits on the i-th reading exactly when
that reading strictly exceeds 0.995 and no earlier reading does; in
particular a reading equal to exactly 0.995 never exits the loop (the
comparison of main.py line 180 is strict). -/
theorem poll_loop_exits_on_first_strict_exceed (rs : List ℚ) (i : Nat) :
    pollLoop (rs.map fun r => (r, 0, 1)) = Except.ok (some i) ↔
      i < rs.length ∧ 995 / 1000 < rs.getD i 0 ∧
        ∀ r ∈ rs.take i, r ≤ 995 / 1000 := by
  induction rs generalizing i with
  | nil => simp [pollLoop]
  | cons r rest ih =>
    rw [List.map_cons]
    rw [show pollLoop ((r, (0:ℚ), (1:ℚ)) :: rest.map fun x => (x, 0, 1)) =
        (match vod_get_current_progress r 0 1 with
          | Except.error e => Except.error e
          | Except.ok p =>
            if p > 995 / 1000 then Except.ok (some 0)
            else
              match pollLoop (rest.map fun x => (x, 0, 1)) with
              | Except.ok (some k) => Except.ok (some (k + 1))
              | q => q) from rfl]
    rw [vgcp_unit]
    by_cases h : (995:ℚ) / 1000 < r
    · rw [show (match Except.ok r with
          | Except.error e => Except.error e
          | Except.ok p =>
            if p > 995 / 1000 then Except.ok (some 0)
            else
              match pollLoop (rest.map fun x => (x, 0, 1)) with
              | Except.ok (some k) => Except.ok (some (k + 1))
              | q => (q : Except PyErr (Option Nat))) =
          if r > 995 / 1000 then Except.ok (some 0)
          else
            match pollLoop (rest.map fun x => (x, 0, 1)) with
            | Except.ok (some k) => Except.ok (some (k + 1))
            | q => q from rfl]
      rw [if_pos h]
      cases i with
      | zero => simp [h]
      | succ j =>
        constructor
        · intro heq
          injection heq with heq
          injection heq with heq
          exact absurd heq (by omega)
        · rintro ⟨-, -, hall⟩
          have := hall r (by simp)
          exact absurd this (not_le.mpr h)
    · rw [show (match Except.ok r with
          | Except.error e => Except.error e
          | Except.ok p =>
            if p > 995 / 1000 then Except.ok (some 0)
            else
              match pollLoop (rest.map fun x => (x, 0, 1)) with
              | Except.ok (some k) => Except.ok (some (k + 1))
              | q => (q : Except PyErr (Option Nat))) =
          if r > 995 / 1000 then Except.ok (some 0)
          else
            match pollLoop (rest.map fun x => (x, 0, 1)) with
            | Except.ok (some k) => Except.ok (some (k + 1))
            | q => q from rfl]
      rw [if_neg h]
      have hr : r ≤ 995 / 1000 := le_of_not_lt h
      cases i with
      | zero =>
        constructor
        · intro heq
          rcases hpl : pollLoop (rest.map fun x => (x, 0, 1)) with e | o
          · rw [hpl] at heq
            cases heq
          · rcases o with _ | k
            · rw [hpl] at heq
              cases heq
            · rw [hpl] at heq
              injection heq with heq
              injection heq with heq
              exact absurd heq (by omega)
        · rintro ⟨-, hgt, -⟩
          rw [List.getD_cons_zero] at hgt
          exact absurd hgt h
      | succ j =>
        have hstep : (match pollLoop (rest.map fun x => (x, 0, 1)) with
            | Except.ok (some k) => Except.ok (some (k + 1))
            | q => (q : Except PyErr (Option Nat))) = Except.ok (some (j + 1)) ↔
            pollLoop (rest.map fun x => (x, 0, 1)) = Except.ok (some j) := by
          rcases hpl : pollLoop (rest.map fun x => (x, 0, 1)) with e | o
          · constructor
            · intro heq; cases heq
            · intro heq; cases heq
          · rcases o with _ | k
            · constructor
              · intro heq; cases heq
              · intro heq; cases heq
            · constructor
              · intro heq
                injection heq with heq
                injection heq with heq
                rw [show k = j from by omega]
              · intro heq
                injection heq with heq
                injection heq with heq
                rw [show k = j from by omega]
        rw [hstep, ih j]
        simp only [List.length_cons, List.getD_cons_succ, List.take_succ_cons,
          List.mem_cons]
        constructor
        · rintro ⟨h1, h2, h3⟩
          refine ⟨by omega, h2, ?_⟩
          rintro x (rfl | hx)
          · exact hr
          · exact h3 x hx
        · rintro ⟨h1, h2, h3⟩
          exact ⟨by omega, h2, fun x hx => h3 x (Or.inr hx)⟩

/-- C9 counterexample: a worker whose `do_login` raises
(`NoSuchElementException` on a missing form field) propagates the failure
and never reaches `driver.close()` (main.py line 259 has no try/finally):
this failed run leaves its Session unclosed, contradicting the claim that
every run, successful or failed, closes its Session. -/
theorem worker_login_failure_leaves_session_open :
    play_vod_in_seperate_thread
        (WorkerEnv.mk (Except.error PyErr.noSuchElement)
          (DriverEnv.mk (Except.ok ()) false (Except.ok ()) (Except.ok ()) 1 [])) =
      (WorkerOutcome.failed PyErr.noSuchElement, false) := rfl

/-- C9 (amended): a worker closes its Session exactly when its whole run
succeeds — login returns normally and `play_vod` returns normally (its poll
loop having exited); any run that ends in a propagated failure leaves the
Session unclosed. -/
theorem worker_closes_session_iff_run_succeeds (env : WorkerEnv) :
    ((play_vod_in_seperate_thread env).2 = true ↔
      env.loginResult = Except.ok () ∧
        ∃ i, play_vod env.driverEnv = Except.ok (some i)) ∧
    (∀ e, (play_vod_in_seperate_thread env).1 = WorkerOutcome.failed e →
      (play_vod_in_seperate_thread env).2 = false) := by
  unfold play_vod_in_seperate_thread
  rcases hl : env.loginResult with e | u
  · simp [hl]
  · cases u
    rcases hp : play_vod env.driverEnv with e | o
    · simp [hp]
    · rcases o with _ | i <;> simp [hp]

/-- C8: in `play_vod`, an element-lookup failure in the navigate, play-click
or rate-selection step (including indexing an empty rate menu) propagates
uncaught to the caller, while the dialog-check step always returns normally:
the presence or absence of an alert never changes the result of `play_vod`,
so its absence never causes a failure. -/
theorem play_vod_error_propagation (env : DriverEnv) (e : PyErr) :
    (env.navResult = Except.error e → play_vod env = Except.error e) ∧
    (env.navResult = Except.ok () ∧ env.playBtnResult = Except.error e →
      play_vod env = Except.error e) ∧
    (env.navResult = Except.ok () ∧ env.playBtnResult = Except.ok () ∧
        env.rateBtnResult = Except.error e →
      play_vod env = Except.error e) ∧
    (env.navResult = Except.ok () ∧ env.playBtnResult = Except.ok () ∧
        env.rateBtnResult = Except.ok () ∧ env.rateMenuCount = 0 →
      play_vod env = Except.error PyErr.indexError) ∧
    (vod_confirm_alert_if_exists env = Except.ok ()) ∧
    (play_vod { env with alertPresent := true } =
      play_vod { env with alertPresent := false }) := by
  have halert : ∀ env' : DriverEnv, vod_confirm_alert_if_exists env' = Except.ok () := by
    intro env'
    unfold vod_confirm_alert_if_exists switch_to_alert
    rcases env'.alertPresent <;> simp
  refine ⟨?_, ?_, ?_, ?_, halert env, ?_⟩
  · intro h
    simp [play_vod, h, Except.bind]
  · rintro ⟨h1, h2⟩
    simp [play_vod, h1, halert, vod_click_play_btn, h2, Except.bind]
  · rintro ⟨h1, h2, h3⟩
    simp [play_vod, h1, halert, vod_click_play_btn, h2,
      vod_set_to_highest_playback_rate, h3, Except.bind]
  · rintro ⟨h1, h2, h3, h4⟩
    simp [play_vod, h1, halert, vod_click_play_btn, h2,
      vod_set_to_highest_playback_rate, h3, h4, Except.bind]
  · simp [play_vod, halert, vod_click_play_btn, vod_set_to_highest_playback_rate]

end LearnusBot
